import Mathlib

/-!
Shallow embedding of the conductor repository's store layer, task-status
helpers, branch-name derivation, stream-event parser and session finalizer,
with theorems checking the natural-language specification against them.

Conventions of the embedding:
* SQLite rows are Lean structures; the database is a pair of row lists.
* Timestamps (`Utc::now().to_rfc3339()`) are passed in as a `Nat` parameter
  `now`; UUIDs (`Uuid::new_v4()`) are passed in as a `String` parameter.
* Rust `f64` money amounts only ever flow through comparisons with zero and
  field-wise overrides here, so they are modelled as `Rat`.
* Rust byte-indexed string slicing (`&s[..n]`), which panics when `n` is not
  a UTF-8 character boundary, is modelled by `byteTake`, returning `none`
  exactly on the panicking inputs.
-/

namespace Conductor

/-- Rust strings that undergo byte-level operations are modelled as `List Char`. -/
abbrev RStr := List Char

/-- UTF-8 byte length of a string, as Rust's `str::len`. -/
def utf8Len (s : RStr) : Nat := (s.map Char.utf8Size).sum

/-- Model of the Rust byte slice `&s[..n]`: the first `n` bytes of the UTF-8
encoding of `s`, or `none` when `n` does not fall on a character boundary
(in Rust that slice panics). -/
def byteTake (s : RStr) (n : Nat) : Option RStr :=
  match s, n with
  | _, 0 => some []
  | [], _ + 1 => none
  | c :: rest, n + 1 =>
    if c.utf8Size ≤ n + 1 then
      (byteTake rest (n + 1 - c.utf8Size)).map (c :: ·)
    else
      none

-- ── Store row types (src/db/queries.rs) ──

/-- Embeds `GoalSettings` (src/db/queries.rs): all-optional knobs. -/
structure GoalSettings where
  model : Option String
  max_budget_usd : Option Rat
  max_turns : Option Nat
  allowed_tools : Option (List String)
  permission_mode : Option String
  system_prompt : Option String
deriving DecidableEq

/-- The all-`None` default (`#[derive(Default)]` on `GoalSettings`). -/
def GoalSettings.default : GoalSettings :=
  ⟨none, none, none, none, none, none⟩

/-- Embeds `GoalSettings::model`: resolved model with fallback default. -/
def GoalSettings.modelResolved (s : GoalSettings) : String :=
  s.model.getD "sonnet"

/-- Embeds `GoalSettings::max_budget_usd`: resolved budget with fallback default. -/
def GoalSettings.max_budget_usdResolved (s : GoalSettings) : Rat :=
  s.max_budget_usd.getD 5

/-- Embeds `GoalSettings::max_turns`: resolved turn cap with fallback default. -/
def GoalSettings.max_turnsResolved (s : GoalSettings) : Nat :=
  s.max_turns.getD 50

/-- Embeds `GoalSettings::allowed_tools`: resolved tool set with fallback default. -/
def GoalSettings.allowed_toolsResolved (s : GoalSettings) : List String :=
  s.allowed_tools.getD ["Bash", "Read", "Edit", "Write", "Grep", "Glob"]

/-- Embeds `GoalSettings::permission_mode`: no fallback, `None` if unset. -/
def GoalSettings.permission_modeResolved (s : GoalSettings) : Option String :=
  s.permission_mode

/-- Embeds `GoalSettings::system_prompt`: no fallback, `None` if unset. -/
def GoalSettings.system_promptResolved (s : GoalSettings) : Option String :=
  s.system_prompt

/-- Embeds `GoalSettings::merge`: task-level settings override goal-level
settings field-wise where present (`self` is the goal, the argument the task). -/
def GoalSettings.merge (g t : GoalSettings) : GoalSettings where
  model := t.model.or g.model
  max_budget_usd := t.max_budget_usd.or g.max_budget_usd
  max_turns := t.max_turns.or g.max_turns
  allowed_tools := t.allowed_tools.or g.allowed_tools
  permission_mode := t.permission_mode.or g.permission_mode
  system_prompt := t.system_prompt.or g.system_prompt

/-- Embeds a row of the `goal_spaces` table. -/
structure GoalSpace where
  id : String
  name : String
  description : String
  status : String
  repo_path : String
  created_at : Nat
  updated_at : Nat
  settings : GoalSettings
deriving DecidableEq

/-- Embeds a row of the `tasks` table (struct `Task` in src/db/queries.rs). -/
structure Task where
  id : String
  goal_space_id : String
  title : String
  description : String
  status : String
  priority : Int
  depends_on : List String
  settings : GoalSettings
  created_at : Nat
  updated_at : Nat
deriving DecidableEq

/-- Embeds `CreateTask` (src/db/queries.rs), the `create_task` input record. -/
structure CreateTask where
  title : String
  description : String
  priority : Int
  depends_on : List String
  settings : GoalSettings
deriving DecidableEq

/-- Embeds `UpdateTask` (src/db/queries.rs), the `update_task` patch record. -/
structure UpdateTask where
  title : Option String
  description : Option String
  status : Option String
  priority : Option Int
  depends_on : Option (List String)
  settings : Option GoalSettings
deriving DecidableEq

/-- An `UpdateTask` patch that only changes the status field. -/
def UpdateTask.statusOnly (st : String) : UpdateTask :=
  ⟨none, none, some st, none, none, none⟩

/-- The database state relevant to the claims: the `goal_spaces` and `tasks`
tables. (`goal_space_history`, touched only by append-only audit inserts, is
not modelled.) -/
structure DB where
  goal_spaces : List GoalSpace
  tasks : List Task
deriving DecidableEq

-- ── Store operations (src/db/queries.rs) ──

/-- The WHERE clause of the single UPDATE in
`mark_goal_completed_if_all_tasks_done`, evaluated on one `goal_spaces` row:
id matches, status is not already completed, at least one task exists for the
goal, and no task of the goal has a status other than done. -/
def completionCond (db : DB) (goal_space_id : String) (g : GoalSpace) : Bool :=
  g.id == goal_space_id && g.status != "completed"
    && db.tasks.any (fun t => t.goal_space_id == goal_space_id)
    && !(db.tasks.any (fun t => t.goal_space_id == goal_space_id && t.status != "done"))

/-- Embeds `mark_goal_completed_if_all_tasks_done` (src/db/queries.rs):
one UPDATE setting status and timestamp on every row satisfying
`completionCond`; returns the updated database and whether any row was
affected (`rows_affected > 0`). -/
def mark_goal_completed_if_all_tasks_done (db : DB) (goal_space_id : String)
    (now : Nat) : DB × Bool :=
  let rows_affected := (db.goal_spaces.filter (completionCond db goal_space_id)).length
  let goal_spaces := db.goal_spaces.map fun g =>
    if completionCond db goal_space_id g then
      { g with status := "completed", updated_at := now }
    else g
  ({ db with goal_spaces := goal_spaces }, rows_affected > 0)

/-- Embeds `create_task` (src/db/queries.rs): inserts the row with status
`pending` unconditionally and returns it; the generated UUID and timestamp
are the `id` and `now` parameters. No validation of `depends_on` is
performed by the source. -/
def create_task (db : DB) (goal_space_id : String) (input : CreateTask)
    (id : String) (now : Nat) : DB × Task :=
  let t : Task :=
    { id := id
      goal_space_id := goal_space_id
      title := input.title
      description := input.description
      status := "pending"
      priority := input.priority
      depends_on := input.depends_on
      settings := input.settings
      created_at := now
      updated_at := now }
  ({ db with tasks := db.tasks ++ [t] }, t)

/-- Net effect on one `tasks` row of the per-field UPDATE statements in
`update_task`: each provided field is written, together with `updated_at`. -/
def applyUpdateTask (input : UpdateTask) (now : Nat) (t : Task) : Task :=
  let t := match input.title with
    | some v => { t with title := v, updated_at := now }
    | none => t
  let t := match input.description with
    | some v => { t with description := v, updated_at := now }
    | none => t
  let t := match input.status with
    | some v => { t with status := v, updated_at := now }
    | none => t
  let t := match input.priority with
    | some v => { t with priority := v, updated_at := now }
    | none => t
  let t := match input.depends_on with
    | some v => { t with depends_on := v, updated_at := now }
    | none => t
  match input.settings with
    | some v => { t with settings := v, updated_at := now }
    | none => t

/-- Embeds `update_task` (src/db/queries.rs): applies every provided field to
the rows with the given id. The source performs no status-transition
validation and returns `Ok(())` unconditionally (absent I/O errors), which
the embedding mirrors by being total. -/
def update_task (db : DB) (id : String) (input : UpdateTask) (now : Nat) : DB :=
  { db with tasks := db.tasks.map fun t =>
      if t.id == id then applyUpdateTask input now t else t }

/-- Embeds `list_tasks` (src/db/queries.rs) up to row order: the rows of the
goal. (The source orders by priority and creation time; the claims about
`get_unblocked_tasks` are membership statements, independent of order.) -/
def list_tasks (db : DB) (goal_space_id : String) : List Task :=
  db.tasks.filter (fun t => t.goal_space_id == goal_space_id)

/-- Embeds `get_unblocked_tasks` (src/db/queries.rs): among the goal's tasks,
collect the ids of the done ones, then keep the pending tasks all of whose
dependencies are in that set. -/
def get_unblocked_tasks (db : DB) (goal_space_id : String) : List Task :=
  let all_tasks := list_tasks db goal_space_id
  let done_ids := (all_tasks.filter (fun t => t.status == "done")).map (·.id)
  all_tasks.filter fun t =>
    t.status == "pending" && t.depends_on.all (fun dep => done_ids.contains dep)

-- ── Task status transitions (src/goal/task.rs) ──

/-- Embeds the `VALID_TRANSITIONS` table (src/goal/task.rs). -/
def VALID_TRANSITIONS : List (String × String) :=
  [("pending", "assigned"),
   ("pending", "blocked"),
   ("pending", "running"),
   ("assigned", "running"),
   ("assigned", "pending"),
   ("running", "done"),
   ("running", "failed"),
   ("running", "stalled"),
   ("stalled", "running"),
   ("stalled", "failed"),
   ("stalled", "killed"),
   ("failed", "pending"),
   ("blocked", "pending")]

/-- Embeds `validate_transition` (src/goal/task.rs): identity transitions are
allowed, listed pairs are allowed, everything else is an error. -/
def validate_transition (src dst : String) : Except String Unit :=
  if src = dst then .ok ()
  else if VALID_TRANSITIONS.any (fun p => p.1 == src && p.2 == dst) then .ok ()
  else .error ("Invalid task status transition: " ++ src ++ " -> " ++ dst)

-- ── Branch-name derivation (src/agent/worktree.rs) ──

/-- Models Rust `char::is_alphanumeric` (Unicode `Alphabetic ∨ Nd ∨ Nl ∨ No`).
The encoding is exact on the code points this development evaluates it on:
ASCII, the Latin-1 supplement, and the CJK Unified Ideographs block. -/
def rust_is_alphanumeric (c : Char) : Bool :=
  c.isAlphanum
  || [0xAA, 0xB2, 0xB3, 0xB5, 0xB9, 0xBA, 0xBC, 0xBD, 0xBE].contains c.toNat
  || (decide (0xC0 ≤ c.toNat) && decide (c.toNat ≤ 0xFF)
      && c.toNat != 0xD7 && c.toNat != 0xF7)
  || (decide (0x4E00 ≤ c.toNat) && decide (c.toNat ≤ 0x9FFF))

/-- Models Rust `str::to_lowercase` character-wise. On ASCII, the Latin-1
supplement and CJK ideographs, Unicode lowercasing maps each character to one
character, so a character-to-character model is exact there. -/
def rust_char_lower (c : Char) : Char :=
  if c.isUpper then c.toLower
  else if decide (0xC0 ≤ c.toNat) && decide (c.toNat ≤ 0xDE) && c.toNat != 0xD7 then
    Char.ofNat (c.toNat + 0x20)
  else c

/-- Models Rust `str::trim_matches(c)`: strip every leading and trailing `c`. -/
def trim_matches (c : Char) (s : RStr) : RStr :=
  ((s.dropWhile (· == c)).reverse.dropWhile (· == c)).reverse

/-- The per-character replacement of `branch_name`: keep alphanumerics and
hyphens, map everything else to a hyphen. -/
def replaceChar (c : Char) : Char :=
  if rust_is_alphanumeric c || c == '-' then c else '-'

/-- Embeds `branch_name` (src/agent/worktree.rs): replace non-alphanumeric,
non-hyphen characters by hyphens, lowercase, trim hyphens, byte-truncate the
slug at 40 and the agent id at `min(8, len)`, and assemble
`conductor/<id-part>/<slug>`. Both truncations are Rust byte slices, so the
result is `none` exactly when the source panics. -/
def branch_name (agent_id task_title : RStr) : Option RStr :=
  let sanitized := (task_title.map replaceChar).map rust_char_lower
  let sanitized := trim_matches '-' sanitized
  let truncated := if utf8Len sanitized > 40 then byteTake sanitized 40 else some sanitized
  match byteTake agent_id (min 8 (utf8Len agent_id)), truncated with
  | some p, some t => some ("conductor/".toList ++ p ++ '/' :: t)
  | _, _ => none

/-- The slug as the specification words it: the title lower-cased, with
non-alphanumerics (except hyphen) replaced by hyphen, and leading and
trailing hyphens trimmed. -/
def branch_slug_spec (task_title : RStr) : RStr :=
  trim_matches '-' ((task_title.map rust_char_lower).map replaceChar)

/-- The branch name as the specification words it, for comparison with
`branch_name`: `NAMESPACE/<first-8-of-agent-id>/<slug-of-title>` where the
slug is `branch_slug_spec` truncated to 40 characters. -/
def branch_name_spec (agent_id task_title : RStr) : RStr :=
  "conductor/".toList ++ agent_id.take 8 ++ '/' :: (branch_slug_spec task_title).take 40

-- ── Stream-event parser (src/agent/event_parser.rs) ──

/-- Model of a `serde_json::Value`. `as_i64` succeeds only on integer-stored
numbers, `as_f64` on any number, mirroring serde_json's accessors. -/
inductive Json where
  | null
  | bool (b : Bool)
  | intNum (i : Int)
  | floatNum (q : Rat)
  | str (s : RStr)
  | arr (elems : List Json)
  | obj (fields : List (RStr × Json))

/-- First field with the given key, as serde_json object lookup. -/
def lookupField : List (RStr × Json) → RStr → Option Json
  | [], _ => none
  | (k, v) :: rest, key => if k == key then some v else lookupField rest key

/-- Models `Value::get(key)`: field lookup on objects, `None` otherwise. -/
def Json.get (j : Json) (key : RStr) : Option Json :=
  match j with
  | .obj fields => lookupField fields key
  | _ => none

/-- Models `Value::as_str`. -/
def Json.as_str : Json → Option RStr
  | .str s => some s
  | _ => none

/-- Models `Value::as_bool`. -/
def Json.as_bool : Json → Option Bool
  | .bool b => some b
  | _ => none

/-- Models `Value::as_i64`. -/
def Json.as_i64 : Json → Option Int
  | .intNum i => some i
  | _ => none

/-- Models `Value::as_f64`. -/
def Json.as_f64 : Json → Option Rat
  | .intNum i => some (i : Rat)
  | .floatNum q => some q
  | _ => none

/-- Models `Value::as_array`. -/
def Json.as_array : Json → Option (List Json)
  | .arr elems => some elems
  | _ => none

/-- Embeds the `ParsedEvent` enum (src/agent/event_parser.rs). -/
inductive ParsedEvent where
  | ToolUse (tool_name input_summary : RStr)
  | ToolResult (tool_name : RStr) (success : Bool) (summary : RStr)
  | TextDelta (text : RStr)
  | TextMessage (text : RStr)
  | ApiRequest (model : RStr) (cost_usd : Rat) (input_tokens output_tokens duration_ms : Int)
  | Error (message : RStr)
  | Result (session_id result_text : RStr) (cost_usd : Rat) (input_tokens output_tokens : Int)
  | System (message : RStr)
deriving DecidableEq

/-- The single-quote character, used by the Grep and Glob summaries. -/
def squote : Char := Char.ofNat 39

/-- Embeds `summarize_tool_input` (src/agent/event_parser.rs). The Bash arm
truncates the command at 80 bytes with a Rust byte slice; `Except.error ()`
models the panic that slice raises off a character boundary. -/
def summarize_tool_input (tool_name : RStr) (input : Json) : Except Unit RStr :=
  if tool_name == "Read".toList then
    .ok ("Reading ".toList ++ ((input.get "file_path".toList).bind Json.as_str).getD "?".toList)
  else if tool_name == "Edit".toList then
    .ok ("Editing ".toList ++ ((input.get "file_path".toList).bind Json.as_str).getD "?".toList)
  else if tool_name == "Write".toList then
    .ok ("Writing ".toList ++ ((input.get "file_path".toList).bind Json.as_str).getD "?".toList)
  else if tool_name == "Bash".toList then
    let cmd := ((input.get "command".toList).bind Json.as_str).getD "?".toList
    if utf8Len cmd > 80 then
      match byteTake cmd 80 with
      | some t => .ok ("Running: ".toList ++ (t ++ "...".toList))
      | none => .error ()
    else
      .ok ("Running: ".toList ++ cmd)
  else if tool_name == "Grep".toList then
    let pat := ((input.get "pattern".toList).bind Json.as_str).getD "?".toList
    .ok ("Searching for ".toList ++ squote :: (pat ++ [squote]))
  else if tool_name == "Glob".toList then
    let pat := ((input.get "pattern".toList).bind Json.as_str).getD "?".toList
    .ok ("Finding files matching ".toList ++ squote :: (pat ++ [squote]))
  else
    .ok ("Using ".toList ++ tool_name)

/-- The scan of an `assistant` message's content array: the first `tool_use`
block or first non-empty `text` block decides the event; blocks without a
string `type`, with an unknown type, or with empty text are skipped. -/
def parse_assistant_content : List Json → Except Unit (Option ParsedEvent)
  | [] => .ok none
  | block :: rest =>
    match (block.get "type".toList).bind Json.as_str with
    | some bt =>
      if bt == "tool_use".toList then
        let tool_name := ((block.get "name".toList).bind Json.as_str).getD "unknown".toList
        let input := (block.get "input".toList).getD Json.null
        match summarize_tool_input tool_name input with
        | .ok s => .ok (some (.ToolUse tool_name s))
        | .error e => .error e
      else if bt == "text".toList then
        let text := ((block.get "text".toList).bind Json.as_str).getD []
        if text.isEmpty then parse_assistant_content rest
        else .ok (some (.TextMessage text))
      else parse_assistant_content rest
    | none => parse_assistant_content rest

/-- Embeds `parse_stream_json_line` (src/agent/event_parser.rs). The input is
the result of `serde_json::from_str` — `none` models a malformed line, which
the source ignores via `.ok()?`. `Except.error ()` models a panic inside the
parser (the byte-slice truncations); `.ok none` models a silently ignored
line. -/
def parse_stream_json_line (line : Option Json) : Except Unit (Option ParsedEvent) :=
  match line with
  | none => .ok none
  | some v =>
    match (v.get "type".toList).bind Json.as_str with
    | none => .ok none
    | some event_type =>
      if event_type == "assistant".toList then
        match (v.get "message".toList).bind (fun m => m.get "content".toList) with
        | some content =>
          match content.as_array with
          | some content_arr => parse_assistant_content content_arr
          | none => .ok none
        | none => .ok none
      else if event_type == "content_block_delta".toList then
        match (v.get "delta".toList).bind (fun d => (d.get "text".toList).bind Json.as_str) with
        | some text => .ok (some (.TextDelta text))
        | none => .ok none
      else if event_type == "result".toList then
        let session_id := ((v.get "session_id".toList).bind Json.as_str).getD []
        let result_text := ((v.get "result".toList).bind Json.as_str).getD []
        let cost_usd :=
          (((v.get "cost_usd".toList).or (v.get "total_cost_usd".toList)).bind Json.as_f64).getD 0
        let input_tokens :=
          ((v.get "usage".toList).bind fun u => (u.get "input_tokens".toList).bind Json.as_i64).getD 0
        let output_tokens :=
          ((v.get "usage".toList).bind fun u => (u.get "output_tokens".toList).bind Json.as_i64).getD 0
        .ok (some (.Result session_id result_text cost_usd input_tokens output_tokens))
      else if event_type == "tool_result".toList || event_type == "tool_output".toList then
        let tool_name :=
          (((v.get "tool_name".toList).or (v.get "name".toList)).bind Json.as_str).getD "unknown".toList
        let is_error := ((v.get "is_error".toList).bind Json.as_bool).getD false
        let output :=
          (((v.get "output".toList).or (v.get "content".toList)).bind Json.as_str).getD []
        if utf8Len output > 200 then
          match byteTake output 200 with
          | some t => .ok (some (.ToolResult tool_name (!is_error) (t ++ "...".toList)))
          | none => .error ()
        else
          .ok (some (.ToolResult tool_name (!is_error) output))
      else if event_type == "error".toList then
        let message :=
          (((v.get "error".toList).or (v.get "message".toList)).bind Json.as_str).getD
            "Unknown error".toList
        .ok (some (.Error message))
      else if event_type == "system".toList then
        let message := ((v.get "message".toList).bind Json.as_str).getD []
        if !message.isEmpty then .ok (some (.System message)) else .ok none
      else
        .ok none

-- ── Session termination finalizer (src/agent/session.rs) ──

/-- Result of `Child::try_wait` in the finalizer: `ok (some b)` is
`Ok(Some(status))` with `b = status.success()`, `ok none` is `Ok(None)`,
and `ioError` is `Err(_)`. -/
inductive TryWait where
  | ok (exit : Option Bool)
  | ioError
deriving DecidableEq

/-- Embeds the final-status computation at the end of the reader task in
`spawn_agent` (src/agent/session.rs): the pair is (AgentRun status, Task
status). Hard timeout wins, then budget enforcement; otherwise a successful
exit yields `done` only when the accumulated cost is positive, and every
other exit outcome yields `failed`. -/
def final_status (timed_out budget_exceeded : Bool) (exit_status : TryWait)
    (cost_usd : Rat) : String × String :=
  if timed_out then ("failed", "failed")
  else if budget_exceeded then ("killed", "failed")
  else
    match exit_status with
    | .ok (some true) => if cost_usd > 0 then ("done", "done") else ("failed", "failed")
    | _ => ("failed", "failed")

/-- Embeds the cost bookkeeping of the reader loop in `spawn_agent`
(src/agent/session.rs): an `ApiRequest` event adds its cost to the
accumulator, a `Result` event overwrites the accumulator with its final
cost, and every other event leaves it unchanged. -/
def accumulate_cost (cost : Rat) (e : ParsedEvent) : Rat :=
  match e with
  | .ApiRequest _ c _ _ _ => cost + c
  | .Result _ _ c _ _ => c
  | _ => cost

-- ── Concrete inputs used by counterexamples and witnesses ──

/-- A stream line whose Bash command is 27 three-byte characters (81 UTF-8
bytes): the 80-byte truncation slice in `summarize_tool_input` falls inside
the 27th character. -/
def bashOverflowLine : Json :=
  .obj [("type".toList, .str "assistant".toList),
        ("message".toList, .obj [("content".toList, .arr
          [.obj [("type".toList, .str "tool_use".toList),
                 ("name".toList, .str "Bash".toList),
                 ("input".toList, .obj [("command".toList, .str (List.replicate 27 '中'))])]])])]

/-- A task title of 21 copies of a two-byte character: its slug is 42 UTF-8
bytes long, so the source truncates it to 20 characters (40 bytes) while a
40-character truncation would keep all 21. -/
def accentTitle : RStr := List.replicate 21 'é'

/-- A one-goal, one-pending-task database used by concrete counterexamples:
the task `t1` has status `pending` and a dependency on an id that matches no
task. -/
def exampleDB : DB :=
  { goal_spaces := [⟨"g1", "G", "D", "active", "/tmp/r", 0, 0, GoalSettings.default⟩]
    tasks := [⟨"t1", "g1", "T", "D", "pending", 0, ["missing"], GoalSettings.default, 0, 0⟩] }

/-- The pending task of `exampleDB`. -/
def exampleTask : Task :=
  ⟨"t1", "g1", "T", "D", "pending", 0, ["missing"], GoalSettings.default, 0, 0⟩

/-- The §4.2 transition table exactly as the specification lists it:
pending→assigned|blocked|running, assigned→running|pending,
running→done|failed|stalled, stalled→running|failed|killed, failed→pending,
blocked→pending. -/
def spec42_transitions : List (String × String) :=
  [("pending", "assigned"), ("pending", "blocked"), ("pending", "running"),
   ("assigned", "running"), ("assigned", "pending"),
   ("running", "done"), ("running", "failed"), ("running", "stalled"),
   ("stalled", "running"), ("stalled", "failed"), ("stalled", "killed"),
   ("failed", "pending"),
   ("blocked", "pending")]

/-- The WHERE clause of `mark_goal_completed_if_all_tasks_done` stated as the
specification words it: the goal row matches the id and is not already
completed, the goal has at least one task, and no task of the goal has a
status other than done. -/
def completionSpec (db : DB) (goal_space_id : String) (g : GoalSpace) : Prop :=
  g.id = goal_space_id ∧ g.status ≠ "completed"
    ∧ (∃ t ∈ db.tasks, t.goal_space_id = goal_space_id)
    ∧ (∀ t ∈ db.tasks, t.goal_space_id = goal_space_id → t.status = "done")

instance (db : DB) (goal_space_id : String) (g : GoalSpace) :
    Decidable (completionSpec db goal_space_id g) := by
  unfold completionSpec
  infer_instance

/-- A database whose single goal has exactly one task, already done. -/
def doneDB : DB :=
  { goal_spaces := [⟨"g1", "G", "D", "active", "/tmp/r", 0, 0, GoalSettings.default⟩]
    tasks := [⟨"t1", "g1", "T", "D", "done", 0, [], GoalSettings.default, 0, 0⟩] }

/-- A database with one done task and one pending task depending on it. -/
def chainDB : DB :=
  { goal_spaces := [⟨"g1", "G", "D", "active", "/tmp/r", 0, 0, GoalSettings.default⟩]
    tasks := [⟨"t1", "g1", "A", "D", "done", 0, [], GoalSettings.default, 0, 0⟩,
              ⟨"t2", "g1", "B", "D", "pending", 0, ["t1"], GoalSettings.default, 0, 0⟩] }

/-- The pending task of `chainDB`. -/
def chainTask : Task :=
  ⟨"t2", "g1", "B", "D", "pending", 0, ["t1"], GoalSettings.default, 0, 0⟩

-- ── Helper lemmas ──

theorem utf8Size_eq_one_of_ascii (c : Char) (h : c.toNat < 128) : c.utf8Size = 1 := by
  have hv : c.val ≤ UInt32.ofNatCore 0x7F (by decide) := by
    show c.val.toBitVec ≤ _
    have hn : c.val.toNat ≤ 0x7F := Nat.lt_succ_iff.mp h
    simp [BitVec.le_def]
    exact hn
  unfold Char.utf8Size
  exact if_pos hv

theorem utf8Len_nil : utf8Len [] = 0 := rfl

theorem utf8Len_cons (c : Char) (s : RStr) :
    utf8Len (c :: s) = c.utf8Size + utf8Len s := by
  simp [utf8Len]

theorem byteTake_cons (c : Char) (rest : RStr) (n : Nat) :
    byteTake (c :: rest) n =
      if n = 0 then some []
      else if c.utf8Size ≤ n then (byteTake rest (n - c.utf8Size)).map (c :: ·)
      else none := by
  cases n with
  | zero => simp [byteTake]
  | succ m => simp [byteTake]

theorem byteTake_full (s : RStr) : byteTake s (utf8Len s) = some s := by
  induction s with
  | nil => simp [utf8Len, byteTake]
  | cons c rest ih =>
    have hpos : 0 < c.utf8Size := Char.utf8Size_pos c
    rw [utf8Len_cons, byteTake_cons, if_neg (by omega), if_pos (by omega),
      Nat.add_sub_cancel_left, ih]
    rfl

theorem utf8Len_ascii (s : RStr) (h : ∀ c ∈ s, c.toNat < 128) :
    utf8Len s = s.length := by
  induction s with
  | nil => rfl
  | cons c rest ih =>
    rw [utf8Len_cons, utf8Size_eq_one_of_ascii c (h c (by simp)),
      ih (fun x hx => h x (by simp [hx])), List.length_cons]
    omega

theorem byteTake_ascii (s : RStr) (n : Nat) (h : ∀ c ∈ s, c.toNat < 128)
    (hn : n ≤ s.length) : byteTake s n = some (s.take n) := by
  induction s generalizing n with
  | nil =>
    have : n = 0 := by simpa using hn
    simp [this, byteTake]
  | cons c rest ih =>
    rw [byteTake_cons, utf8Size_eq_one_of_ascii c (h c (by simp))]
    rcases n with _ | m
    · simp
    · rw [if_neg (by omega), if_pos (by omega)]
      simp only [Nat.add_sub_cancel]
      rw [ih m (fun x hx => h x (by simp [hx])) (by simpa using hn)]
      rfl

theorem mem_of_mem_dropWhile {p : Char → Bool} {s : RStr} {a : Char}
    (h : a ∈ s.dropWhile p) : a ∈ s := by
  induction s with
  | nil => simp [List.dropWhile] at h
  | cons c rest ih =>
    rw [List.dropWhile_cons] at h
    by_cases hc : p c = true
    · simp only [hc, if_true] at h
      exact List.mem_cons_of_mem c (ih h)
    · simp only [hc, if_false] at h
      exact h

theorem mem_of_mem_trim_matches {c : Char} {s : RStr} {a : Char}
    (h : a ∈ trim_matches c s) : a ∈ s := by
  unfold trim_matches at h
  rw [List.mem_reverse] at h
  have h1 := mem_of_mem_dropWhile h
  rw [List.mem_reverse] at h1
  exact mem_of_mem_dropWhile h1

theorem ascii_char_cases (P : Char → Prop) [DecidablePred P]
    (hall : ∀ n : Fin 128, P (Char.ofNat n.val)) (c : Char) (hc : c.toNat < 128) :
    P c := by
  have := hall ⟨c.toNat, hc⟩
  rwa [Char.ofNat_toNat] at this

set_option maxRecDepth 8192 in
theorem replace_lower_comm (c : Char) (h : c.toNat < 128) :
    rust_char_lower (replaceChar c) = replaceChar (rust_char_lower c) := by
  refine ascii_char_cases
    (fun x => rust_char_lower (replaceChar x) = replaceChar (rust_char_lower x)) ?_ c h
  decide

set_option maxRecDepth 8192 in
theorem replace_lower_ascii (c : Char) (h : c.toNat < 128) :
    (rust_char_lower (replaceChar c)).toNat < 128 := by
  refine ascii_char_cases (fun x => (rust_char_lower (replaceChar x)).toNat < 128) ?_ c h
  decide

theorem slug_maps_eq (title : RStr) (h : ∀ c ∈ title, c.toNat < 128) :
    (title.map replaceChar).map rust_char_lower = (title.map rust_char_lower).map replaceChar := by
  rw [List.map_map, List.map_map]
  exact List.map_congr_left fun a ha => by
    simpa using replace_lower_comm a (h a ha)

theorem slug_ascii (title : RStr) (h : ∀ c ∈ title, c.toNat < 128) :
    ∀ c ∈ trim_matches '-' ((title.map replaceChar).map rust_char_lower),
      c.toNat < 128 := by
  intro c hc
  have hmem := mem_of_mem_trim_matches hc
  rw [List.map_map] at hmem
  obtain ⟨a, ha, rfl⟩ := List.mem_map.mp hmem
  simpa using replace_lower_ascii a (h a ha)

theorem completionCond_iff (db : DB) (gid : String) (g : GoalSpace) :
    completionCond db gid g = true ↔ completionSpec db gid g := by
  unfold completionCond completionSpec
  simp only [Bool.and_eq_true, Bool.not_eq_true', beq_iff_eq, bne_iff_ne, ne_eq,
    List.any_eq_true, List.any_eq_false]
  constructor
  · rintro ⟨⟨⟨hid, hst⟩, hex⟩, hall⟩
    refine ⟨hid, hst, ?_, ?_⟩
    · obtain ⟨t, ht, htg⟩ := hex
      exact ⟨t, ht, htg⟩
    · intro t ht htg
      have := hall t ht
      simp only [htg, true_and, Bool.and_eq_true, beq_iff_eq, bne_iff_ne, ne_eq] at this
      simpa using this
  · rintro ⟨hid, hst, ⟨t, ht, htg⟩, hall⟩
    refine ⟨⟨⟨hid, hst⟩, ⟨t, ht, by simpa using htg⟩⟩, ?_⟩
    intro u hu
    by_cases hug : u.goal_space_id = gid
    · simp [hug, hall u hu hug]
    · simp [hug]

/-- C1: `mark_goal_completed_if_all_tasks_done` returns true exactly when a
goal row with the given id is modified, which happens if and only if the
goal is not already completed, has at least one task and no task with a
status other than done; when modified, the row receives status `completed`
and the new timestamp; otherwise every row is left unchanged, and the tasks
table is never touched. -/
theorem mark_goal_completed_matches_spec (db : DB) (gid : String) (now : Nat) :
    ((mark_goal_completed_if_all_tasks_done db gid now).2 = true ↔
      ∃ g ∈ db.goal_spaces, completionSpec db gid g)
    ∧ (mark_goal_completed_if_all_tasks_done db gid now).1.tasks = db.tasks
    ∧ List.Forall₂ (fun g gNew =>
        (completionSpec db gid g →
          gNew = { g with status := "completed", updated_at := now })
        ∧ (¬ completionSpec db gid g → gNew = g))
      db.goal_spaces (mark_goal_completed_if_all_tasks_done db gid now).1.goal_spaces := by
  refine ⟨?_, rfl, ?_⟩
  · unfold mark_goal_completed_if_all_tasks_done
    simp only [decide_eq_true_eq, List.length_pos]
    rw [ne_eq, List.filter_eq_nil_iff]
    push_neg
    constructor
    · rintro ⟨g, hg, hc⟩
      exact ⟨g, hg, (completionCond_iff db gid g).mp hc⟩
    · rintro ⟨g, hg, hspec⟩
      exact ⟨g, hg, (completionCond_iff db gid g).mpr hspec⟩
  · unfold mark_goal_completed_if_all_tasks_done
    simp only []
    rw [List.forall₂_map_right_iff, List.forall₂_same]
    intro g hg
    constructor
    · intro hspec
      rw [if_pos ((completionCond_iff db gid g).mpr hspec)]
    · intro hspec
      rw [if_neg (fun hc => hspec ((completionCond_iff db gid g).mp hc))]

/-- C1 witness: on a concrete database whose single goal has one done task,
the atomic completion check reports a modification. -/
theorem mark_goal_completed_matches_spec_witness :
    (mark_goal_completed_if_all_tasks_done doneDB "g1" 7).2 = true :=
  (mark_goal_completed_matches_spec doneDB "g1" 7).1.mpr (by decide)

theorem mem_get_unblocked_iff (db : DB) (gid : String) (t : Task) :
    t ∈ get_unblocked_tasks db gid ↔
      t ∈ db.tasks ∧ t.goal_space_id = gid ∧ t.status = "pending"
        ∧ ∀ dep ∈ t.depends_on, ∃ u ∈ db.tasks,
            u.goal_space_id = gid ∧ u.id = dep ∧ u.status = "done" := by
  unfold get_unblocked_tasks list_tasks
  simp only [List.mem_filter, Bool.and_eq_true, beq_iff_eq, List.all_eq_true]
  constructor
  · rintro ⟨⟨ht, htg⟩, hp, hdeps⟩
    refine ⟨ht, htg, hp, ?_⟩
    intro dep hdep
    have hc := hdeps dep hdep
    rw [List.elem_iff] at hc
    obtain ⟨u, hu, rfl⟩ := List.mem_map.mp hc
    rw [List.mem_filter] at hu
    obtain ⟨hu1, hu2⟩ := hu
    rw [List.mem_filter] at hu1
    exact ⟨u, hu1.1, by simpa using hu1.2, rfl, by simpa using hu2⟩
  · rintro ⟨ht, htg, hp, hdeps⟩
    refine ⟨⟨ht, htg⟩, hp, ?_⟩
    intro dep hdep
    obtain ⟨u, hu, hug, huid, hust⟩ := hdeps dep hdep
    rw [List.elem_iff]
    refine List.mem_map.mpr ⟨u, ?_, huid⟩
    rw [List.mem_filter]
    exact ⟨List.mem_filter.mpr ⟨hu, by simpa using hug⟩, by simpa using hust⟩

/-- C6: `get_unblocked_tasks` returns exactly the tasks of the goal whose
status is `pending` and all of whose dependencies name a task of the same
goal with status `done`. -/
theorem get_unblocked_tasks_exact (db : DB) (gid : String) (t : Task) :
    t ∈ get_unblocked_tasks db gid ↔
      t ∈ db.tasks ∧ t.goal_space_id = gid ∧ t.status = "pending"
        ∧ ∀ dep ∈ t.depends_on, ∃ u ∈ db.tasks,
            u.goal_space_id = gid ∧ u.id = dep ∧ u.status = "done" :=
  mem_get_unblocked_iff db gid t

/-- C6 witness: in a concrete database, the pending task whose only
dependency is done is returned. -/
theorem get_unblocked_tasks_exact_witness :
    chainTask ∈ get_unblocked_tasks chainDB "g1" :=
  (get_unblocked_tasks_exact chainDB "g1" chainTask).mpr (by decide)

/-- C9: a pending task with a dependency on an id matching no task of the
goal is never returned by `get_unblocked_tasks`; the dangling dependency
produces no error, the task is merely withheld. -/
theorem dangling_dependency_blocks (db : DB) (gid : String) (t : Task)
    (dep : String) (_ht : t ∈ db.tasks) (_htg : t.goal_space_id = gid)
    (_hp : t.status = "pending") (hdep : dep ∈ t.depends_on)
    (hnone : ∀ u ∈ db.tasks, u.goal_space_id = gid → u.id ≠ dep) :
    t ∉ get_unblocked_tasks db gid := by
  intro hmem
  obtain ⟨-, -, -, hdeps⟩ := (mem_get_unblocked_iff db gid t).mp hmem
  obtain ⟨u, hu, hug, huid, -⟩ := hdeps dep hdep
  exact hnone u hu hug huid

/-- C9 witness: the concrete pending task whose dependency `missing` matches
no task is not returned. -/
theorem dangling_dependency_blocks_witness :
    exampleTask ∉ get_unblocked_tasks exampleDB "g1" :=
  dangling_dependency_blocks exampleDB "g1" exampleTask "missing"
    (by decide) (by decide) (by decide) (by decide) (by decide)

theorem transition_any_iff (src dst : String) :
    (VALID_TRANSITIONS.any (fun p => p.1 == src && p.2 == dst) = true)
      ↔ (src, dst) ∈ spec42_transitions := by
  have hlists : spec42_transitions = VALID_TRANSITIONS := rfl
  rw [hlists]
  simp only [List.any_eq_true, Bool.and_eq_true, beq_iff_eq]
  constructor
  · rintro ⟨⟨a, b⟩, hp, h1, h2⟩
    simp only at h1 h2
    subst h1
    subst h2
    exact hp
  · intro h
    exact ⟨(src, dst), h, rfl, rfl⟩

/-- C2 counterexample: the transition pending→done is not in the §4.2 table
(`validate_transition` rejects it), yet `update_task` on the pending task of
the concrete database succeeds and persists the new status instead of
failing without mutation. -/
theorem update_task_unvalidated_cx :
    validate_transition "pending" "done"
        = .error "Invalid task status transition: pending -> done"
    ∧ ((update_task exampleDB "t1" (UpdateTask.statusOnly "done") 5).tasks.map Task.status)
        = ["done"] :=
  ⟨rfl, rfl⟩

/-- C2 (amended): `validate_transition` accepts exactly the §4.2 table plus
identity transitions, but the Store's `update_task` never consults it: every
proposed status — valid or not — is written unconditionally to the matching
rows and the call succeeds. -/
theorem update_task_applies_any_status (db : DB) (id st : String) (now : Nat) :
    ((update_task db id (UpdateTask.statusOnly st) now).tasks
      = db.tasks.map fun t =>
          if t.id = id then { t with status := st, updated_at := now } else t)
    ∧ ∀ src dst, validate_transition src dst = .ok ()
        ↔ (src = dst ∨ (src, dst) ∈ spec42_transitions) := by
  constructor
  · unfold update_task
    refine List.map_congr_left fun t _ => ?_
    by_cases h : t.id = id
    · simp [h, applyUpdateTask, UpdateTask.statusOnly]
    · simp [h]
  · intro src dst
    unfold validate_transition
    by_cases h : src = dst
    · simp [h]
    · rw [if_neg h]
      by_cases h2 : VALID_TRANSITIONS.any (fun p => p.1 == src && p.2 == dst) = true
      · rw [if_pos h2]
        simp [h, (transition_any_iff src dst).mp h2]
      · rw [if_neg h2]
        constructor
        · intro hcontra
          exact absurd hcontra (by simp)
        · rintro (rfl | hmem)
          · exact absurd rfl h
          · exact absurd ((transition_any_iff src dst).mpr hmem) h2

/-- C3 counterexample: on a database with no tasks at all, `create_task`
with a dependency on an id that belongs to no task of the goal succeeds and
inserts the task with status `pending`, instead of failing and inserting
nothing. -/
theorem create_task_unvalidated_cx :
    ((create_task ⟨[], []⟩ "g1" ⟨"T", "D", 0, ["missing"], GoalSettings.default⟩
        "t9" 3).1.tasks.length = 1)
    ∧ ((create_task ⟨[], []⟩ "g1" ⟨"T", "D", 0, ["missing"], GoalSettings.default⟩
        "t9" 3).2.status = "pending")
    ∧ ((create_task ⟨[], []⟩ "g1" ⟨"T", "D", 0, ["missing"], GoalSettings.default⟩
        "t9" 3).2.depends_on = ["missing"]) :=
  ⟨rfl, rfl, rfl⟩

/-- C3 (amended): `create_task` performs no validation of `depends_on` —
for every database and every input, including dangling or cyclic
dependencies, it succeeds, inserts exactly the new row with status
`pending`, and stores the dependency list as given. -/
theorem create_task_always_inserts (db : DB) (gid : String) (input : CreateTask)
    (id : String) (now : Nat) :
    ((create_task db gid input id now).2.status = "pending")
    ∧ ((create_task db gid input id now).2.depends_on = input.depends_on)
    ∧ ((create_task db gid input id now).2.goal_space_id = gid)
    ∧ ((create_task db gid input id now).1.tasks
        = db.tasks ++ [(create_task db gid input id now).2])
    ∧ ((create_task db gid input id now).1.goal_spaces = db.goal_spaces) :=
  ⟨rfl, rfl, rfl, rfl, rfl⟩

/-- C5: when neither the hard timeout nor budget enforcement fired, the
final status pair (AgentRun, Task) is computed from the subprocess exit
status and the accumulated cost: a successful exit with positive cost gives
`done` for both, a successful exit with zero cost gives `failed`, a non-zero
exit gives `failed`; in particular, a stream consisting of a single Result
event with zero cost leaves the accumulator at zero and ends `failed`. -/
theorem final_status_exit_inspection (cost : Rat) (sid txt : RStr) (itok otok : Int) :
    (0 < cost → final_status false false (.ok (some true)) cost = ("done", "done"))
    ∧ (cost = 0 → final_status false false (.ok (some true)) cost = ("failed", "failed"))
    ∧ final_status false false (.ok (some false)) cost = ("failed", "failed")
    ∧ ([ParsedEvent.Result sid txt 0 itok otok].foldl accumulate_cost 0 = 0
        ∧ final_status false false (.ok (some true))
            ([ParsedEvent.Result sid txt 0 itok otok].foldl accumulate_cost 0)
          = ("failed", "failed")) := by
  refine ⟨fun h => ?_, fun h => ?_, rfl, rfl, ?_⟩
  · simp [final_status, h]
  · norm_num [final_status, h]
  · norm_num [final_status, accumulate_cost]

/-- C5 witness: the finalizer evaluated at cost 1 and cost 0 after a clean
exit. -/
theorem final_status_exit_inspection_witness :
    final_status false false (.ok (some true)) 1 = ("done", "done")
    ∧ final_status false false (.ok (some true)) 0 = ("failed", "failed") :=
  ⟨(final_status_exit_inspection 1 [] [] 0 0).1 (by norm_num),
   (final_status_exit_inspection 0 [] [] 0 0).2.1 rfl⟩

set_option linter.unusedTactic false in
/-- C8: the effective settings equal the goal's settings with the task's
overrides applied field by field — for each of the six fields the task's
value is used when set and the goal's value otherwise — and the fallback
defaults apply to a field only when neither record sets it (when either
record sets the field, the resolved value is the set value). -/
theorem merge_fieldwise (g t : GoalSettings) :
    (∀ v, t.model = some v → (g.merge t).model = some v)
    ∧ (t.model = none → (g.merge t).model = g.model)
    ∧ (∀ v, t.max_budget_usd = some v → (g.merge t).max_budget_usd = some v)
    ∧ (t.max_budget_usd = none → (g.merge t).max_budget_usd = g.max_budget_usd)
    ∧ (∀ v, t.max_turns = some v → (g.merge t).max_turns = some v)
    ∧ (t.max_turns = none → (g.merge t).max_turns = g.max_turns)
    ∧ (∀ v, t.allowed_tools = some v → (g.merge t).allowed_tools = some v)
    ∧ (t.allowed_tools = none → (g.merge t).allowed_tools = g.allowed_tools)
    ∧ (∀ v, t.permission_mode = some v → (g.merge t).permission_mode = some v)
    ∧ (t.permission_mode = none → (g.merge t).permission_mode = g.permission_mode)
    ∧ (∀ v, t.system_prompt = some v → (g.merge t).system_prompt = some v)
    ∧ (t.system_prompt = none → (g.merge t).system_prompt = g.system_prompt)
    ∧ (t.model = none → g.model = none → (g.merge t).modelResolved = "sonnet")
    ∧ (t.max_budget_usd = none → g.max_budget_usd = none →
        (g.merge t).max_budget_usdResolved = 5)
    ∧ (t.max_turns = none → g.max_turns = none → (g.merge t).max_turnsResolved = 50)
    ∧ (t.allowed_tools = none → g.allowed_tools = none →
        (g.merge t).allowed_toolsResolved = ["Bash", "Read", "Edit", "Write", "Grep", "Glob"])
    ∧ (t.permission_mode = none → g.permission_mode = none →
        (g.merge t).permission_modeResolved = none)
    ∧ (t.system_prompt = none → g.system_prompt = none →
        (g.merge t).system_promptResolved = none)
    ∧ (∀ v, (g.merge t).model = some v → (g.merge t).modelResolved = v)
    ∧ (∀ v, (g.merge t).max_budget_usd = some v → (g.merge t).max_budget_usdResolved = v)
    ∧ (∀ v, (g.merge t).max_turns = some v → (g.merge t).max_turnsResolved = v)
    ∧ (∀ v, (g.merge t).allowed_tools = some v → (g.merge t).allowed_toolsResolved = v) := by
  refine ⟨fun v hv => ?_, fun hn => ?_, fun v hv => ?_, fun hn => ?_,
    fun v hv => ?_, fun hn => ?_, fun v hv => ?_, fun hn => ?_,
    fun v hv => ?_, fun hn => ?_, fun v hv => ?_, fun hn => ?_,
    fun h1 h2 => ?_, fun h1 h2 => ?_, fun h1 h2 => ?_, fun h1 h2 => ?_,
    fun h1 h2 => ?_, fun h1 h2 => ?_,
    fun v hv => ?_, fun v hv => ?_, fun v hv => ?_, fun v hv => ?_⟩
  all_goals first
    | (simp [GoalSettings.merge, Option.or, hv]; done)
    | (simp [GoalSettings.merge, Option.or, hn]; done)
    | (simp [GoalSettings.merge, GoalSettings.modelResolved,
        GoalSettings.max_budget_usdResolved, GoalSettings.max_turnsResolved,
        GoalSettings.allowed_toolsResolved, GoalSettings.permission_modeResolved,
        GoalSettings.system_promptResolved, Option.or, h1, h2]; done)
    | (simp [GoalSettings.modelResolved, GoalSettings.max_budget_usdResolved,
        GoalSettings.max_turnsResolved, GoalSettings.allowed_toolsResolved, hv]; done)

/-- C8 witness: with both records unset, the resolved model falls back to
the default, and a task-set field wins over a goal-set field. -/
theorem merge_fieldwise_witness :
    (GoalSettings.merge GoalSettings.default GoalSettings.default).modelResolved = "sonnet"
    ∧ (GoalSettings.merge ⟨some "haiku", none, none, none, none, none⟩
        ⟨some "opus", none, none, none, none, none⟩).model = some "opus" := by
  constructor
  · obtain ⟨-, -, -, -, -, -, -, -, -, -, -, -, h13, -⟩ :=
      merge_fieldwise GoalSettings.default GoalSettings.default
    exact h13 rfl rfl
  · obtain ⟨h1, -⟩ :=
      merge_fieldwise ⟨some "haiku", none, none, none, none, none⟩
        ⟨some "opus", none, none, none, none, none⟩
    exact h1 "opus" rfl

theorem branch_name_eq (agent_id task_title : RStr) :
    branch_name agent_id task_title =
      match byteTake agent_id (min 8 (utf8Len agent_id)),
        (if utf8Len (trim_matches '-' ((task_title.map replaceChar).map rust_char_lower)) > 40
         then byteTake (trim_matches '-' ((task_title.map replaceChar).map rust_char_lower)) 40
         else some (trim_matches '-' ((task_title.map replaceChar).map rust_char_lower))) with
      | some p, some t => some ("conductor/".toList ++ p ++ '/' :: t)
      | _, _ => none := rfl

theorem trunc_ascii (s : RStr) (h : ∀ c ∈ s, c.toNat < 128) :
    (if utf8Len s > 40 then byteTake s 40 else some s) = some (s.take 40) := by
  by_cases hgt : utf8Len s > 40
  · rw [if_pos hgt, byteTake_ascii s 40 h (by rw [utf8Len_ascii s h] at hgt; omega)]
  · rw [if_neg hgt, List.take_of_length_le (by rw [utf8Len_ascii s h] at hgt; omega)]

theorem byteTake_id_ascii (agent_id : RStr) (h : ∀ c ∈ agent_id, c.toNat < 128) :
    byteTake agent_id (min 8 (utf8Len agent_id)) = some (agent_id.take 8) := by
  rw [utf8Len_ascii agent_id h]
  rcases Nat.le_total agent_id.length 8 with hle | hge
  · rw [Nat.min_eq_right hle, byteTake_ascii agent_id agent_id.length h (le_refl _),
      List.take_length, List.take_of_length_le hle]
  · rw [Nat.min_eq_left hge, byteTake_ascii agent_id 8 h hge]

/-- C7 (amended): on ASCII agent ids and titles — where byte counts and
character counts coincide — the derivation is total and the derived branch
name equals the specification formula
`conductor/<first-8-of-agent-id>/<slug truncated to 40>`; being a function,
it gives equal outputs on equal inputs. On non-ASCII titles the source
truncates the slug at 40 UTF-8 bytes rather than 40 characters, and the
slice can panic off a character boundary (see the counterexample). -/
theorem branch_name_ascii_agrees_spec (agent_id task_title : RStr)
    (hid : ∀ c ∈ agent_id, c.toNat < 128)
    (htitle : ∀ c ∈ task_title, c.toNat < 128) :
    branch_name agent_id task_title = some (branch_name_spec agent_id task_title) := by
  have h2 : trim_matches '-' ((task_title.map replaceChar).map rust_char_lower)
      = trim_matches '-' ((task_title.map rust_char_lower).map replaceChar) := by
    rw [slug_maps_eq task_title htitle]
  have hsascii := slug_ascii task_title htitle
  rw [branch_name_eq, trunc_ascii _ hsascii, byteTake_id_ascii agent_id hid, h2]
  rfl

/-- C7 witness: a concrete ASCII id and title where the source derivation
matches the specification formula. -/
theorem branch_name_ascii_agrees_spec_witness :
    branch_name "abcdef12-xxxx".toList "UPPER Case Title".toList
      = some (branch_name_spec "abcdef12-xxxx".toList "UPPER Case Title".toList) :=
  branch_name_ascii_agrees_spec _ _ (by decide) (by decide)

/-- C7 counterexample: for a title of 21 two-byte characters the source
keeps the first 40 bytes — 20 characters — whereas the claimed truncation to
40 characters keeps all 21, so the derived branch name differs from the
claimed one. -/
theorem branch_name_forty_bytes_cx :
    branch_name "aaaaaaaa-1111".toList accentTitle
      = some ("conductor/aaaaaaaa/".toList ++ List.replicate 20 'é')
    ∧ branch_name "aaaaaaaa-1111".toList accentTitle
      ≠ some (branch_name_spec "aaaaaaaa-1111".toList accentTitle) := by
  exact ⟨rfl, by decide⟩

/-- C10 (amended): the agent-id prefix is taken at min(8, UTF-8 byte length
of the id), so for every id of at most 8 bytes — in particular every ASCII
id shorter than 8 characters — the entire id is used and the derivation does
not fail; for longer multi-byte ids the slice at byte 8 can panic (see the
counterexample). -/
theorem branch_name_short_id_total (agent_id task_title : RStr)
    (hid : utf8Len agent_id ≤ 8)
    (htitle : ∀ c ∈ task_title, c.toNat < 128) :
    branch_name agent_id task_title
      = some ("conductor/".toList ++ agent_id ++ '/' ::
          (branch_slug_spec task_title).take 40) := by
  have h2 : trim_matches '-' ((task_title.map replaceChar).map rust_char_lower)
      = trim_matches '-' ((task_title.map rust_char_lower).map replaceChar) := by
    rw [slug_maps_eq task_title htitle]
  have hsascii := slug_ascii task_title htitle
  rw [branch_name_eq, trunc_ascii _ hsascii, Nat.min_eq_right hid, byteTake_full, h2]
  rfl

/-- C10 witness: a three-character ASCII id passes through whole. -/
theorem branch_name_short_id_total_witness :
    branch_name "abc".toList "task".toList
      = some ("conductor/".toList ++ "abc".toList ++ '/' ::
          (branch_slug_spec "task".toList).take 40) :=
  branch_name_short_id_total "abc".toList "task".toList (by decide) (by decide)

/-- C10 counterexample: an agent id of three three-byte characters is
shorter than 8 characters, yet the derivation fails — the byte slice at
min(8, 9) = 8 splits the third character — instead of using the entire id. -/
theorem branch_name_multibyte_id_cx :
    ("中中中".toList).length < 8
    ∧ branch_name "中中中".toList "task".toList = none :=
  ⟨by decide, rfl⟩

/-- C4: contrary to the claim that the parser never throws or panics on any
input, the line whose Bash command is 27 three-byte characters drives
`summarize_tool_input` into the byte slice `&cmd[..80]`, whose index falls
inside a character: the source panics, modelled here as `Except.error`. -/
theorem parse_stream_json_line_panics :
    parse_stream_json_line (some bashOverflowLine) = .error () := rfl

end Conductor
